import Mathlib

/-!
Shallow embedding of the link resolution and conversion engine of the `flom`
repository (crates `flom-core`, `flom-music`, and the `process_url` driver of
crate `flom`), together with theorems settling the specification claims.

Rust `HashMap<String, V>` values are embedded as association lists
`List (String × V)` with unique keys; `HashMap::get` becomes `List.lookup`,
`HashMap::iter().find(..)` becomes `List.find?`, and collecting plus sorting
the keys becomes `List.map Prod.fst` plus `List.insertionSort`.  Rust
`Result<T, FlomError>` becomes `Except FlomError T`, and `Option` maps to
`Option`.
-/

/-- Error taxonomy of `flom-core/src/error.rs` (`FlomError`). -/
inductive FlomError where
  | UnsupportedInput : String → FlomError
  | InvalidInput : String → FlomError
  | Config : String → FlomError
  | Network : String → FlomError
  | Api : String → FlomError
  | Parse : String → FlomError
deriving DecidableEq, Repr

/-- Alias for `FlomResult<T> = Result<T, FlomError>` of `flom-core/src/error.rs`. -/
abbrev FlomResult (α : Type) : Type := Except FlomError α

deriving instance DecidableEq for Except

/-- Structure `MediaInfo` of `flom-core/src/result.rs`. -/
structure MediaInfo where
  title : Option String
  artist : Option String
  album : Option String
deriving DecidableEq, Repr

/-- Structure `ConversionResult` of `flom-core/src/result.rs`. -/
structure ConversionResult where
  source_url : String
  target_url : Option String
  source_platform : Option String
  target_platform : Option String
  source_info : Option MediaInfo
  target_info : Option MediaInfo
  warning : Option String
deriving DecidableEq, Repr

/-- Structure `OdesliLink` of `flom-music/src/api/odesli.rs`. -/
structure OdesliLink where
  entity_unique_id : String
  url : String
deriving DecidableEq, Repr

/-- Structure `OdesliEntity` of `flom-music/src/api/odesli.rs`. -/
structure OdesliEntity where
  id : Option String
  title : Option String
  artist_name : Option String
  album_name : Option String
  api_provider : Option String
deriving DecidableEq, Repr

/-- Structure `OdesliResponse` of `flom-music/src/api/odesli.rs`; the two
`HashMap` fields are embedded as association lists. -/
structure OdesliResponse where
  entity_unique_id : String
  page_url : String
  links_by_platform : List (String × OdesliLink)
  entities_by_unique_id : List (String × OdesliEntity)
deriving DecidableEq, Repr

/-- Model of Rust `str::to_lowercase` as a character-wise map (the inputs
compared against the alias table are ASCII, where the two agree). -/
def toLowerStr (s : String) : String := String.mk (s.data.map Char.toLower)

/-- Model of Rust `str::trim`: drop whitespace from both ends. -/
def trimStr (s : String) : String :=
  String.mk (((s.data.dropWhile Char.isWhitespace).reverse.dropWhile Char.isWhitespace).reverse)

/-- Split a character list at the first occurrence of a separator, returning
the parts before and after it, or `none` when the separator does not occur. -/
def breakOn (sep : List Char) : List Char → Option (List Char × List Char)
  | [] => if sep = [] then some ([], []) else none
  | c :: cs =>
    if sep.isPrefixOf (c :: cs) then some ([], (c :: cs).drop sep.length)
    else
      match breakOn sep cs with
      | some (p, r) => some (c :: p, r)
      | none => none

/-- Modelled from the spec: the external `url` crate's `Url::parse`, which is
not part of this repository.  Per the spec, it accepts exactly strings
parseable as an absolute URL with a scheme and host; on success it is modelled
as returning the (scheme, host) pair, on failure a diagnostic string. -/
def url_parse (s : String) : Except String (String × String) :=
  match breakOn "://".data s.data with
  | none => .error "relative URL without a base"
  | some (schemeChars, restChars) =>
    let scheme := String.mk schemeChars
    let host := String.mk (restChars.takeWhile (fun c => c ≠ '/'))
    if scheme = "" then .error "missing scheme"
    else if ¬ schemeChars.all (fun c => c.isAlphanum) then .error "invalid scheme"
    else if host = "" then .error "empty host"
    else .ok (scheme, host)

/-- Lexicographic comparison of character lists by scalar value, the order in
which Rust `Vec::sort` arranges the platform-key strings (the keys involved
are ASCII, where byte order and scalar order agree). -/
def leChars : List Char → List Char → Bool
  | [], _ => true
  | _ :: _, [] => false
  | a :: as, b :: bs =>
    if a.toNat < b.toNat then true
    else if b.toNat < a.toNat then false
    else leChars as bs

/-- String comparison induced by `leChars`. -/
def leStr (a b : String) : Bool := leChars a.data b.data

/-- Function `validate_url` of `flom-core/src/lib.rs`: parse with the URL
parser, mapping a parse failure to `InvalidInput` with the diagnostic
interpolated after "invalid url: ". -/
def validate_url (url : String) : FlomResult Unit :=
  match url_parse url with
  | .error err => .error (FlomError.InvalidInput ("invalid url: " ++ err))
  | .ok _ => .ok ()

/-- Alias match of `MusicConverter::normalize_target` of
`flom-music/src/converter.rs`: the fixed table that the trimmed, lower-cased
input is matched against. -/
def alias_key (normalized : String) : Option String :=
  if normalized = "spotify" then some "spotify"
  else if normalized = "applemusic" ∨ normalized = "apple-music" ∨ normalized = "apple_music" then
    some "appleMusic"
  else if normalized = "itunes" then some "itunes"
  else if normalized = "youtube" then some "youtube"
  else if normalized = "youtubemusic" ∨ normalized = "youtube-music" ∨ normalized = "youtube_music" then
    some "youtubeMusic"
  else if normalized = "tidal" then some "tidal"
  else if normalized = "deezer" then some "deezer"
  else if normalized = "amazonmusic" ∨ normalized = "amazon-music" ∨ normalized = "amazon_music" then
    some "amazonMusic"
  else none

/-- Function `MusicConverter::normalize_target` of `flom-music/src/converter.rs`
continued: apply the alias match to the trimmed, lower-cased input. -/
def normalize_target (input : String) : Option String :=
  alias_key (toLowerStr (trimStr input))

/-- Function `display_name` of `flom-music/src/converter.rs`. -/
def display_name (key : String) : String :=
  if key = "appleMusic" then "Apple Music"
  else if key = "itunes" then "iTunes"
  else if key = "spotify" then "Spotify"
  else if key = "youtube" then "YouTube"
  else if key = "youtubeMusic" then "YouTube Music"
  else if key = "tidal" then "Tidal"
  else if key = "deezer" then "Deezer"
  else if key = "amazonMusic" then "Amazon Music"
  else key

/-- Function `entity_to_media` of `flom-music/src/converter.rs`. -/
def entity_to_media (entity : OdesliEntity) : MediaInfo :=
  { title := entity.title, artist := entity.artist_name, album := entity.album_name }

/-- Function `infer_source_platform` of `flom-music/src/converter.rs`: find a
link whose url equals the source url and return its platform key. -/
def infer_source_platform (links : List (String × OdesliLink)) (url : String) : Option String :=
  (links.find? (fun p => p.2.url == url)).map (fun p => p.1)

/-- Function `MusicConverter::convert_from_response` of
`flom-music/src/converter.rs`. -/
def convert_from_response (response : OdesliResponse) (source_url : String)
    (target_key : String) : FlomResult ConversionResult :=
  let source_entity := response.entities_by_unique_id.lookup response.entity_unique_id
  let source_info := source_entity.map entity_to_media
  let source_platform :=
    (source_entity.bind (fun entity => entity.api_provider)).orElse
      (fun _ => infer_source_platform response.links_by_platform source_url)
  match response.links_by_platform.lookup target_key with
  | none =>
    .error (FlomError.UnsupportedInput ("target platform not available: " ++ target_key))
  | some target_link =>
    let target_entity := response.entities_by_unique_id.lookup target_link.entity_unique_id
    .ok { source_url := source_url
          target_url := some target_link.url
          source_platform := source_platform
          target_platform := some target_key
          source_info := source_info
          target_info := target_entity.map entity_to_media
          warning := none }

/-- Shallow embedding of `MusicConverter::fetch_links` of
`flom-music/src/converter.rs`.  The network layer is a parameter `net`; the
second component of the result counts the network requests issued, so that
"validation runs before the network call" is the statement that a validation
failure returns with count 0 for every `net`. -/
def fetch_links (net : String → FlomResult OdesliResponse) (url : String) :
    FlomResult OdesliResponse × Nat :=
  match validate_url url with
  | .error e => (.error e, 0)
  | .ok _ => (net url, 1)

/-- Target-string interpretation of `process_url` in `flom/src/main.rs`
(lines 256-265): trim and lower-case; the literals "all" and "songlink" are
kept as-is, anything else goes through `normalize_target`, whose failure is
`InvalidInput` naming the target. -/
def resolve_target_key (target : String) : FlomResult String :=
  if toLowerStr (trimStr target) = "all" then .ok "all"
  else if toLowerStr (trimStr target) = "songlink" then .ok "songlink"
  else
    match normalize_target target with
    | some key => .ok key
    | none => .error (FlomError.InvalidInput ("unknown target: " ++ target))

/-- Dispatch on the resolved target key in `process_url` of
`flom/src/main.rs` (lines 270-298): for "all", sort the platform keys and
convert each in order; for "songlink", build the generic-page result directly;
otherwise convert the single key. -/
def process_with_target (response : OdesliResponse) (url : String) (target_key : String) :
    FlomResult (List ConversionResult) :=
  if target_key = "all" then
    let keys :=
      List.insertionSort (fun a b => leStr a b = true) (response.links_by_platform.map Prod.fst)
    keys.mapM (fun key => convert_from_response response url key)
  else if target_key = "songlink" then
    .ok [{ source_url := url
           target_url := some response.page_url
           source_platform := none
           target_platform := some "songlink"
           source_info := none
           target_info := none
           warning := none }]
  else
    (convert_from_response response url target_key).map (fun r => [r])

/-- Composition of target resolution and dispatch, as `process_url` performs
them for a supplied target string (after the network fetch). -/
def process_url_with (response : OdesliResponse) (url : String) (target : String) :
    FlomResult (List ConversionResult) :=
  (resolve_target_key target).bind (process_with_target response url)

/-- Concrete resolution-service response used by the scenario parts of the
claims: platform keys itunes, spotify, tidal, with a canonical entity whose
provider is reported. -/
def sampleResponse : OdesliResponse :=
  { entity_unique_id := "e0"
    page_url := "https://song.link/x"
    links_by_platform :=
      [("tidal", { entity_unique_id := "e1", url := "https://tidal.com/x" }),
       ("spotify", { entity_unique_id := "e0", url := "https://open.spotify.com/x" }),
       ("itunes", { entity_unique_id := "e2", url := "https://itunes.apple.com/x" })]
    entities_by_unique_id :=
      [("e0", { id := some "e0", title := some "T", artist_name := some "A",
                album_name := none, api_provider := some "spotify" })] }

/-- Concrete response whose canonical entity reports no provider, used for the
inference-fallback witnesses. -/
def sampleResponseNoProvider : OdesliResponse :=
  { entity_unique_id := "e0"
    page_url := "https://song.link/x"
    links_by_platform :=
      [("tidal", { entity_unique_id := "e1", url := "https://tidal.com/x" }),
       ("spotify", { entity_unique_id := "e0", url := "https://open.spotify.com/x" })]
    entities_by_unique_id :=
      [("e0", { id := some "e0", title := some "T", artist_name := some "A",
                album_name := none, api_provider := none })] }

theorem leChars_total (a b : List Char) : leChars a b = true ∨ leChars b a = true := by
  induction a generalizing b with
  | nil => left; rfl
  | cons x xs ih =>
    cases b with
    | nil => right; rfl
    | cons y ys =>
      by_cases h1 : x.toNat < y.toNat
      · left; simp [leChars, h1]
      · by_cases h2 : y.toNat < x.toNat
        · right; simp [leChars, h2]
        · have := ih ys
          simp [leChars, h1, h2]
          exact this

theorem leChars_trans (a b c : List Char) (h1 : leChars a b = true) (h2 : leChars b c = true) :
    leChars a c = true := by
  induction a generalizing b c with
  | nil => rfl
  | cons x xs ih =>
    cases b with
    | nil => simp [leChars] at h1
    | cons y ys =>
      cases c with
      | nil => simp [leChars] at h2
      | cons z zs =>
        simp only [leChars] at h1 h2 ⊢
        split_ifs at h1 h2 ⊢ with hxy hyx hyz hzy hxz hzx
        all_goals first | rfl | omega | (exact ih ys zs h1 h2)

theorem lookup_isSome_of_mem_keys {β : Type} (l : List (String × β)) (k : String)
    (h : k ∈ l.map Prod.fst) : (l.lookup k).isSome := by
  induction l with
  | nil => simp at h
  | cons p t ih =>
    obtain ⟨a, b⟩ := p
    simp only [List.map_cons, List.mem_cons] at h
    by_cases hk : k = a
    · have hb : (k == a) = true := beq_iff_eq.mpr hk
      simp only [List.lookup, hb, Option.isSome_some]
    · have hb : (k == a) = false := beq_eq_false_iff_ne.mpr hk
      have hmem : k ∈ t.map Prod.fst := by
        rcases h with h0 | h0
        · exact absurd h0 hk
        · exact h0
      simp only [List.lookup, hb]
      exact ih hmem

theorem lookup_eq_none_of_not_mem_keys {β : Type} (l : List (String × β)) (k : String)
    (h : k ∉ l.map Prod.fst) : l.lookup k = none := by
  induction l with
  | nil => rfl
  | cons p t ih =>
    obtain ⟨a, b⟩ := p
    simp only [List.map_cons, List.mem_cons, not_or] at h
    have hb : (k == a) = false := beq_eq_false_iff_ne.mpr h.1
    simp only [List.lookup, hb]
    exact ih h.2

/-- The `ConversionResult` that `convert_from_response` builds when the
target-key lookup finds `link`; spelled out for reuse in the proofs. -/
def builtResult (response : OdesliResponse) (source_url target_key : String)
    (link : OdesliLink) : ConversionResult :=
  { source_url := source_url
    target_url := some link.url
    source_platform :=
      ((response.entities_by_unique_id.lookup response.entity_unique_id).bind
          (fun entity => entity.api_provider)).orElse
        (fun _ => infer_source_platform response.links_by_platform source_url)
    target_platform := some target_key
    source_info :=
      (response.entities_by_unique_id.lookup response.entity_unique_id).map entity_to_media
    target_info :=
      (response.entities_by_unique_id.lookup link.entity_unique_id).map entity_to_media
    warning := none }

theorem convert_ok_of_lookup (response : OdesliResponse) (source_url target_key : String)
    (link : OdesliLink) (h : response.links_by_platform.lookup target_key = some link) :
    convert_from_response response source_url target_key =
      .ok (builtResult response source_url target_key link) := by
  simp [convert_from_response, builtResult, h]

theorem mapM_convert_ok (response : OdesliResponse) (url : String) :
    ∀ ks : List String, (∀ k ∈ ks, (response.links_by_platform.lookup k).isSome) →
    ∃ rs : List ConversionResult,
      (ks.mapM (fun key => convert_from_response response url key) :
        FlomResult (List ConversionResult)) = .ok rs ∧
      rs.map (fun r => r.target_platform) = ks.map some ∧
      rs.length = ks.length := by
  intro ks
  induction ks with
  | nil => intro _; exact ⟨[], rfl, rfl, rfl⟩
  | cons k t ih =>
    intro h
    have hk := h k (List.mem_cons_self k t)
    obtain ⟨link, hlink⟩ := Option.isSome_iff_exists.mp hk
    obtain ⟨rs, hrs, hmap, hlen⟩ := ih (fun x hx => h x (List.mem_cons_of_mem k hx))
    refine ⟨builtResult response url k link :: rs, ?_, ?_, ?_⟩
    · rw [List.mapM_cons, convert_ok_of_lookup response url k link hlink, hrs]
      rfl
    · simp [hmap, builtResult]
    · simp [hlen]

/-- Claim-side description of how the source platform is determined, mirroring
the three cases of C1: reported provider of the canonical entity; exact-URL
match in the link map; otherwise absent. -/
def sourcePlatformRule (response : OdesliResponse) (source_url : String)
    (r : ConversionResult) : Prop :=
  (∃ e p, response.entities_by_unique_id.lookup response.entity_unique_id = some e ∧
      e.api_provider = some p ∧ r.source_platform = some p) ∨
  ((response.entities_by_unique_id.lookup response.entity_unique_id).bind
      (fun e => e.api_provider) = none ∧
    ((∃ k l, (k, l) ∈ response.links_by_platform ∧ l.url = source_url ∧
        r.source_platform = some k) ∨
     ((∀ p ∈ response.links_by_platform, p.2.url ≠ source_url) ∧
       r.source_platform = none)))

/-- C1: whenever the target-key lookup succeeds, `convert_from_response`
returns a success whose `source_platform` is the canonical entity's reported
provider if there is one, else the platform key of a link whose url equals the
source url, else absent — and absence of a source platform is never an
error. -/
theorem C1_source_platform_inference (response : OdesliResponse)
    (source_url target_key : String) (link : OdesliLink)
    (h : response.links_by_platform.lookup target_key = some link) :
    ∃ r, convert_from_response response source_url target_key = .ok r ∧
      sourcePlatformRule response source_url r := by
  refine ⟨builtResult response source_url target_key link,
    convert_ok_of_lookup response source_url target_key link h, ?_⟩
  unfold sourcePlatformRule
  cases hprov : (response.entities_by_unique_id.lookup response.entity_unique_id).bind
      (fun e => e.api_provider) with
  | some p =>
    left
    obtain ⟨e, he, hp⟩ := Option.bind_eq_some.mp hprov
    exact ⟨e, p, he, hp, by simp [builtResult, he, hp, Option.orElse]⟩
  | none =>
    right
    refine ⟨rfl, ?_⟩
    cases hf : response.links_by_platform.find? (fun p => p.2.url == source_url) with
    | some q =>
      left
      have hq := List.find?_some hf
      have hq2 : q.2.url = source_url := by simpa using hq
      have hmem : q ∈ response.links_by_platform := List.mem_of_find?_eq_some hf
      refine ⟨q.1, q.2, by simpa using hmem, hq2, ?_⟩
      simp [builtResult, hprov, Option.orElse, infer_source_platform, hf]
    | none =>
      right
      constructor
      · intro p hp
        have hne := List.find?_eq_none.mp hf p hp
        simpa using hne
      · simp [builtResult, hprov, Option.orElse, infer_source_platform, hf]

/-- Witness for C1 at a concrete response whose canonical entity reports no
provider, so the fallback scan applies. -/
theorem C1_source_platform_inference_witness :
    ∃ r, convert_from_response sampleResponseNoProvider "https://open.spotify.com/x" "tidal" =
        .ok r ∧
      sourcePlatformRule sampleResponseNoProvider "https://open.spotify.com/x" r :=
  C1_source_platform_inference sampleResponseNoProvider "https://open.spotify.com/x" "tidal"
    { entity_unique_id := "e1", url := "https://tidal.com/x" } (by decide)

/-- C2: a target key that is not a key of `linksByPlatform` yields exactly the
`UnsupportedInput` error naming that key, and a success result never has an
absent `target_url`. -/
theorem C2_unsupported_target (response : OdesliResponse) (source_url target_key : String) :
    (target_key ∉ response.links_by_platform.map Prod.fst →
      convert_from_response response source_url target_key =
        .error (FlomError.UnsupportedInput ("target platform not available: " ++ target_key))) ∧
    (∀ r, convert_from_response response source_url target_key = .ok r →
      r.target_url.isSome) := by
  constructor
  · intro h
    have hnone := lookup_eq_none_of_not_mem_keys response.links_by_platform target_key h
    simp [convert_from_response, hnone]
  · intro r hr
    rcases hl : response.links_by_platform.lookup target_key with _ | link
    · rw [convert_from_response] at hr
      simp [hl] at hr
    · rw [convert_ok_of_lookup response source_url target_key link hl] at hr
      cases hr
      simp [builtResult]

/-- Witness for C2: requesting deezer from the sample response (which lacks
it) produces the `UnsupportedInput` error naming deezer. -/
theorem C2_unsupported_target_witness :
    convert_from_response sampleResponse "https://open.spotify.com/x" "deezer" =
      .error (FlomError.UnsupportedInput "target platform not available: deezer") :=
  (C2_unsupported_target sampleResponse "https://open.spotify.com/x" "deezer").1 (by decide)

/-- C3: `normalize_target` recognizes exactly the trimmed lower-cased alias
strings, maps each separator variant of a platform name to its canonical key,
and returns nothing for every unrecognized string, the empty string
included. -/
theorem C3_normalize_target_aliases (s : String) :
    ((normalize_target s).isSome ↔
      toLowerStr (trimStr s) ∈
        ["spotify", "applemusic", "apple-music", "apple_music", "itunes", "youtube",
         "youtubemusic", "youtube-music", "youtube_music", "tidal", "deezer",
         "amazonmusic", "amazon-music", "amazon_music"]) ∧
    (toLowerStr (trimStr s) = "spotify" → normalize_target s = some "spotify") ∧
    (toLowerStr (trimStr s) ∈ ["applemusic", "apple-music", "apple_music"] →
      normalize_target s = some "appleMusic") ∧
    (toLowerStr (trimStr s) = "itunes" → normalize_target s = some "itunes") ∧
    (toLowerStr (trimStr s) = "youtube" → normalize_target s = some "youtube") ∧
    (toLowerStr (trimStr s) ∈ ["youtubemusic", "youtube-music", "youtube_music"] →
      normalize_target s = some "youtubeMusic") ∧
    (toLowerStr (trimStr s) = "tidal" → normalize_target s = some "tidal") ∧
    (toLowerStr (trimStr s) = "deezer" → normalize_target s = some "deezer") ∧
    (toLowerStr (trimStr s) ∈ ["amazonmusic", "amazon-music", "amazon_music"] →
      normalize_target s = some "amazonMusic") ∧
    normalize_target "" = none ∧
    normalize_target "pandora" = none ∧
    normalize_target "  Apple-Music " = some "appleMusic" ∧
    normalize_target "APPLE_MUSIC" = some "appleMusic" ∧
    normalize_target "YouTubeMusic" = some "youtubeMusic" ∧
    normalize_target " amazon-music " = some "amazonMusic" ∧
    normalize_target "SPOTIFY" = some "spotify" := by
  refine ⟨?_, ?_, ?_, ?_, ?_, ?_, ?_, ?_, ?_, by decide, by decide, by decide, by decide,
    by decide, by decide, by decide⟩
  · unfold normalize_target alias_key
    split_ifs with h1 h2 h3 h4 h5 h6 h7 h8 <;> simp_all <;> tauto
  all_goals intro h
  all_goals try simp only [List.mem_cons, List.not_mem_nil, or_false] at h
  all_goals unfold normalize_target
  all_goals first
    | (rw [h]; decide)
    | (rcases h with h | h | h <;> rw [h] <;> decide)

/-- Witness for C3 at a mixed-case separator variant. -/
theorem C3_normalize_target_aliases_witness :
    normalize_target "  YouTube-Music " = some "youtubeMusic" :=
  (C3_normalize_target_aliases "  YouTube-Music ").2.2.2.2.2.1 (by decide)

/-- C4: `validate_url` succeeds exactly when the URL parser succeeds (an
absolute URL with a scheme and host, both nonempty); any other input fails
with `InvalidInput` carrying the parser's diagnostic.  The embedding is a pure
function, so the call has no side effects. -/
theorem C4_validate_url (s : String) :
    (validate_url s = .ok () ↔ ∃ p, url_parse s = .ok p) ∧
    (∀ scheme host, url_parse s = .ok (scheme, host) → scheme ≠ "" ∧ host ≠ "") ∧
    (∀ d, url_parse s = .error d →
      validate_url s = .error (FlomError.InvalidInput ("invalid url: " ++ d))) := by
  refine ⟨?_, ?_, ?_⟩
  · unfold validate_url
    cases h : url_parse s with
    | error d => simp [h]
    | ok p => simp [h]
  · intro scheme host hok
    unfold url_parse at hok
    rcases hb : breakOn "://".data s.data with _ | ⟨schemeChars, restChars⟩
    · rw [hb] at hok; cases hok
    · rw [hb] at hok
      simp only at hok
      split_ifs at hok with hempty halpha hhost
      cases hok
      exact ⟨hempty, hhost⟩
  · intro d hd
    unfold validate_url
    rw [hd]

/-- Witness for C4: a well-formed URL passes, and "not-a-url" fails with the
diagnostic-carrying `InvalidInput`. -/
theorem C4_validate_url_witness :
    validate_url "https://example.com/track/1" = .ok () ∧
    validate_url "not-a-url" =
      .error (FlomError.InvalidInput ("invalid url: " ++ "relative URL without a base")) :=
  ⟨(C4_validate_url "https://example.com/track/1").1.mpr ⟨("https", "example.com"), by decide⟩,
   (C4_validate_url "not-a-url").2.2 "relative URL without a base" (by decide)⟩

/-- C5: the "all" selection converts once per platform key, iterating the keys
of `linksByPlatform` in lexicographic order; in particular a response with
keys itunes, spotify, tidal produces exactly 3 results in that order. -/
theorem C5_all_selection_lexicographic :
    (∀ (response : OdesliResponse) (url : String),
      ∃ rs, process_with_target response url "all" = .ok rs ∧
        rs.map (fun r => r.target_platform) =
          (List.insertionSort (fun a b => leStr a b = true)
            (response.links_by_platform.map Prod.fst)).map some ∧
        rs.length = response.links_by_platform.length ∧
        (List.insertionSort (fun a b => leStr a b = true)
            (response.links_by_platform.map Prod.fst)).Perm
          (response.links_by_platform.map Prod.fst) ∧
        List.Sorted (fun a b => leStr a b = true)
          (List.insertionSort (fun a b => leStr a b = true)
            (response.links_by_platform.map Prod.fst))) ∧
    (process_with_target sampleResponse "https://open.spotify.com/x" "all").map
        (List.map (fun r => r.target_platform)) =
      .ok [some "itunes", some "spotify", some "tidal"] := by
  constructor
  · intro response url
    haveI htot : IsTotal String (fun a b => leStr a b = true) :=
      ⟨fun a b => leChars_total a.data b.data⟩
    haveI htrans : IsTrans String (fun a b => leStr a b = true) :=
      ⟨fun a b c => leChars_trans a.data b.data c.data⟩
    have hperm := List.perm_insertionSort (fun a b : String => leStr a b = true)
      (response.links_by_platform.map Prod.fst)
    have hsorted := List.sorted_insertionSort (fun a b : String => leStr a b = true)
      (response.links_by_platform.map Prod.fst)
    have hmem : ∀ k ∈ List.insertionSort (fun a b => leStr a b = true)
        (response.links_by_platform.map Prod.fst),
        (response.links_by_platform.lookup k).isSome := by
      intro k hk
      exact lookup_isSome_of_mem_keys response.links_by_platform k (hperm.subset hk)
    obtain ⟨rs, hrs, hmap, hlen⟩ := mapM_convert_ok response url _ hmem
    refine ⟨rs, ?_, hmap, ?_, hperm, hsorted⟩
    · unfold process_with_target
      rw [if_pos rfl]
      exact hrs
    · rw [hlen, hperm.length_eq, List.length_map]
  · decide

/-- C6: the "songlink" selection produces exactly one result, built from
`page_url` with both identities absent and the fixed sentinel target platform,
without consulting `linksByPlatform` (the result is unchanged under any
replacement of the link map). -/
theorem C6_songlink_generic_page (response : OdesliResponse) (url : String) :
    process_with_target response url "songlink" =
      .ok [{ source_url := url
             target_url := some response.page_url
             source_platform := none
             target_platform := some "songlink"
             source_info := none
             target_info := none
             warning := none }] ∧
    ∀ links2, process_with_target { response with links_by_platform := links2 } url "songlink" =
      process_with_target response url "songlink" := by
  constructor
  · unfold process_with_target
    rw [if_neg (by decide : ¬ ("songlink" : String) = "all"), if_pos rfl]
  · intro links2
    unfold process_with_target
    rw [if_neg (by decide : ¬ ("songlink" : String) = "all"), if_pos rfl,
      if_neg (by decide : ¬ ("songlink" : String) = "all"), if_pos rfl]

/-- Witness for C6 at the sample response. -/
theorem C6_songlink_generic_page_witness :
    process_with_target sampleResponse "https://open.spotify.com/x" "songlink" =
      .ok [{ source_url := "https://open.spotify.com/x"
             target_url := some "https://song.link/x"
             source_platform := none
             target_platform := some "songlink"
             source_info := none
             target_info := none
             warning := none }] :=
  (C6_songlink_generic_page sampleResponse "https://open.spotify.com/x").1

/-- Counterexample to C7 as stated: the string " all " does not
case-insensitively equal "all" (lower-casing alone leaves the spaces), and the
Platform Normalizer rejects it, so the claim predicts an `InvalidInput`
failure; but the code trims before comparing and selects the All variant. -/
theorem C7_counterexample_untrimmed_all :
    toLowerStr " all " ≠ "all" ∧ toLowerStr " all " ≠ "songlink" ∧
    normalize_target " all " = none ∧
    resolve_target_key " all " = .ok "all" ∧
    resolve_target_key " all " ≠
      .error (FlomError.InvalidInput ("unknown target: " ++ " all ")) := by
  decide

/-- C7 (amended): after trimming surrounding whitespace, a case-insensitive
"all" selects All and a case-insensitive "songlink" selects GenericPage, both
bypassing the normalizer; any other string goes through `normalize_target`,
whose failure is an `InvalidInput` naming the target, produced before any
conversion is attempted (the error is the same for every response). -/
theorem C7_target_resolution_amended (target : String) (response : OdesliResponse)
    (url : String) :
    (toLowerStr (trimStr target) = "all" → resolve_target_key target = .ok "all") ∧
    (toLowerStr (trimStr target) = "songlink" → resolve_target_key target = .ok "songlink") ∧
    (toLowerStr (trimStr target) ≠ "all" → toLowerStr (trimStr target) ≠ "songlink" →
      ∀ k, normalize_target target = some k → resolve_target_key target = .ok k) ∧
    (toLowerStr (trimStr target) ≠ "all" → toLowerStr (trimStr target) ≠ "songlink" →
      normalize_target target = none →
      process_url_with response url target =
        .error (FlomError.InvalidInput ("unknown target: " ++ target))) := by
  refine ⟨?_, ?_, ?_, ?_⟩
  · intro h
    unfold resolve_target_key
    rw [if_pos h]
  · intro h
    unfold resolve_target_key
    rw [if_neg (by simp [h]), if_pos h]
  · intro h1 h2 k hk
    unfold resolve_target_key
    rw [if_neg h1, if_neg h2, hk]
  · intro h1 h2 hk
    unfold process_url_with resolve_target_key
    rw [if_neg h1, if_neg h2, hk]
    rfl

/-- Witness for C7 (amended): "ALL" selects All although the normalizer
rejects it, and the unrecognized "vinyl" is refused with `InvalidInput` before
any conversion, on a concrete response. -/
theorem C7_target_resolution_amended_witness :
    resolve_target_key "ALL" = .ok "all" ∧
    resolve_target_key " SongLink " = .ok "songlink" ∧
    resolve_target_key "Deezer" = .ok "deezer" ∧
    process_url_with sampleResponse "https://open.spotify.com/x" "vinyl" =
      .error (FlomError.InvalidInput ("unknown target: " ++ "vinyl")) :=
  ⟨(C7_target_resolution_amended "ALL" sampleResponse "u").1 (by decide),
   (C7_target_resolution_amended " SongLink " sampleResponse "u").2.1 (by decide),
   (C7_target_resolution_amended "Deezer" sampleResponse "u").2.2.1 (by decide) (by decide)
     "deezer" (by decide),
   (C7_target_resolution_amended "vinyl" sampleResponse "https://open.spotify.com/x").2.2.2
     (by decide) (by decide) (by decide)⟩

/-- C8: for every network behavior, an input that fails URL validation makes
`fetch_links` return that `InvalidInput` error with zero network requests
issued — validation always runs before the network call. -/
theorem C8_validation_before_network (net : String → FlomResult OdesliResponse)
    (url : String) (e : FlomError) (h : validate_url url = .error e) :
    fetch_links net url = (.error e, 0) := by
  unfold fetch_links
  rw [h]

/-- Witness for C8: "not-a-url" fails validation and no request reaches the
network layer. -/
theorem C8_validation_before_network_witness :
    fetch_links (fun _ => .error (FlomError.Network "down")) "not-a-url" =
      (.error (FlomError.InvalidInput "invalid url: relative URL without a base"), 0) :=
  C8_validation_before_network (fun _ => .error (FlomError.Network "down")) "not-a-url"
    (FlomError.InvalidInput "invalid url: relative URL without a base") (by decide)

/-- C9: `convert_from_response` is deterministic — its output depends only on
the response snapshot, source URL and target key, so two calls on equal inputs
yield equal results (the embedding is a pure function). -/
theorem C9_convert_deterministic (r1 r2 : OdesliResponse) (u1 u2 k1 k2 : String)
    (h1 : r1 = r2) (h2 : u1 = u2) (h3 : k1 = k2) :
    convert_from_response r1 u1 k1 = convert_from_response r2 u2 k2 := by
  rw [h1, h2, h3]

/-- Witness for C9 at the sample response. -/
theorem C9_convert_deterministic_witness :
    convert_from_response sampleResponse "https://open.spotify.com/x" "spotify" =
      convert_from_response sampleResponse "https://open.spotify.com/x" "spotify" :=
  C9_convert_deterministic sampleResponse sampleResponse "https://open.spotify.com/x"
    "https://open.spotify.com/x" "spotify" "spotify" rfl rfl rfl

/-- C10: `normalize_target` is idempotent on its range — every canonical key
it produces is itself accepted and maps to itself. -/
theorem C10_normalize_target_idempotent (x k : String) (h : normalize_target x = some k) :
    normalize_target k = some k := by
  unfold normalize_target alias_key at h
  split_ifs at h <;> (cases h; decide)

/-- Witness for C10 through the appleMusic alias. -/
theorem C10_normalize_target_idempotent_witness :
    normalize_target "appleMusic" = some "appleMusic" :=
  C10_normalize_target_idempotent "Apple-Music" "appleMusic" (by decide)
